import Mathlib

/-!
Verification of the incremental file-editing engine of the Obsidian-mcp
repository.  Buffers are modelled as `List Char` (a JS string is a sequence
of characters); each JS string primitive used by the engine is embedded
faithfully, and the `modify_file` operation loop of `src/tools/files.js`
is translated operation by operation.
-/

namespace ObsidianMcp

/-- JS `haystack.indexOf(needle, fromIndex)` restricted to the search part:
returns the least index `j` such that `needle` occurs in `l` starting at
position `j`, as an `Option`. -/
def searchFrom (needle : List Char) : List Char → Option Nat
  | [] => if needle.isPrefixOf ([] : List Char) then some 0 else none
  | c :: rest =>
    if needle.isPrefixOf (c :: rest) then some 0
    else (searchFrom needle rest).map (· + 1)

/-- JS `String.prototype.indexOf(needle, fromIndex)`: the start offset of the
first occurrence of `needle` at a position `≥ fromIndex` (the position is
clamped to the string length), or `-1` when there is none.  An empty needle
matches at the clamped `fromIndex` itself, as in JS. -/
def jsIndexOf (haystack needle : List Char) (fromIndex : Nat) : Int :=
  match searchFrom needle (haystack.drop (min fromIndex haystack.length)) with
  | some j => ((min fromIndex haystack.length + j : Nat) : Int)
  | none => -1

/-- The scanning loop of `findNthOccurrence` (src/utils.js, lines 37-44):
`index = -1; fromIndex = 0; repeat occurrence times { index = indexOf(needle,
fromIndex); if index = -1 return -1; fromIndex = index + needle.length };
return index`. -/
def findNthLoop (haystack needle : List Char) : Nat → Nat → Int
  | 0, _ => -1
  | k + 1, fromIndex =>
    if jsIndexOf haystack needle fromIndex = -1 then -1
    else if k = 0 then jsIndexOf haystack needle fromIndex
    else
      findNthLoop haystack needle k
        ((jsIndexOf haystack needle fromIndex).toNat + needle.length)

/-- `findNthOccurrence(haystack, needle, occurrence)` of src/utils.js:
throws (modelled as `Except.error`) when the needle is empty, otherwise
returns the offset of the `occurrence`-th non-overlapping occurrence or
`-1` when there are fewer occurrences. -/
def findNthOccurrence (haystack needle : List Char) (occurrence : Nat) :
    Except String Int :=
  if needle = [] then Except.error "Anchor/target text must not be empty"
  else Except.ok (findNthLoop haystack needle occurrence 0)

/-- A successful search really found the needle: when `searchFrom` answers
`some j`, the needle is a prefix of the haystack dropped at `j`. -/
theorem searchFrom_isPrefixOf (needle : List Char) :
    ∀ s j, searchFrom needle s = some j →
      needle.isPrefixOf (s.drop j) = true := by
  intro s
  induction s with
  | nil =>
    intro j h
    simp only [searchFrom] at h
    split at h
    · cases h
      simpa using (by assumption : needle.isPrefixOf ([] : List Char) = true)
    · cases h
  | cons c rest ih =>
    intro j h
    simp only [searchFrom] at h
    split at h
    · cases h
      simpa using (by assumption : needle.isPrefixOf (c :: rest) = true)
    · match hrec : searchFrom needle rest with
      | none => rw [hrec] at h; cases h
      | some j0 =>
        rw [hrec] at h
        simp only [Option.map_some'] at h
        cases h
        simpa using ih j0 hrec

/-- When `searchFrom` finds a non-empty needle at `j`, `j` is a position
inside the haystack. -/
theorem searchFrom_lt_length (needle : List Char) (hne : needle ≠ []) :
    ∀ s j, searchFrom needle s = some j → j < s.length := by
  intro s j h
  have hpre := searchFrom_isPrefixOf needle s j h
  by_contra hge
  have hnil : s.drop j = [] := List.drop_eq_nil_of_le (Nat.le_of_not_lt hge)
  rw [hnil] at hpre
  exact hne (by simpa [List.isPrefixOf_iff_prefix] using hpre)

/-- The non-empty-separator loop of JS `String.prototype.split`: cut at the
leftmost occurrence of `sep`, keep scanning after it. -/
def splitLoop (sep : List Char) (s : List Char) (hsep : sep ≠ []) :
    List (List Char) :=
  match hsearch : searchFrom sep s with
  | none => [s]
  | some j => s.take j :: splitLoop sep (s.drop (j + sep.length)) hsep
  termination_by s.length
  decreasing_by
    have hj : j < s.length := searchFrom_lt_length sep hsep s j hsearch
    have hlen : 1 ≤ sep.length := by
      cases sep with
      | nil => exact absurd rfl hsep
      | cons _ _ => simp
    simp only [List.length_drop]
    omega

/-- JS `String.prototype.split(sep)` with a string separator: for an empty
separator the string is cut into single characters, otherwise the string is
cut at every non-overlapping left-to-right occurrence of `sep`. -/
def jsSplit (s sep : List Char) : List (List Char) :=
  if hsep : sep = [] then s.map (fun c => [c])
  else splitLoop sep s hsep

/-- The operation variants accepted by the `modify_file` tool
(discriminated union in src/tools/files.js, lines 115-148).  Optional
fields are `Option`s; JS reads `occurrence ?? 1` and tests
`allOccurrences` for truthiness. -/
inductive Operation where
  | append (text : List Char)
  | prepend (text : List Char)
  | insert_after (anchor text : List Char) (occurrence : Option Nat)
  | insert_before (anchor text : List Char) (occurrence : Option Nat)
  | replace (target text : List Char) (occurrence : Option Nat)
      (allOccurrences : Option Bool)
  | replace_range (startOffset endOffset : Nat) (text : List Char)
deriving DecidableEq

/-- The `type` discriminator string of an operation. -/
def opTypeName : Operation → String
  | .append _ => "append"
  | .prepend _ => "prepend"
  | .insert_after _ _ _ => "insert_after"
  | .insert_before _ _ _ => "insert_before"
  | .replace _ _ _ _ => "replace"
  | .replace_range _ _ _ => "replace_range"

/-- One iteration of the `switch (operation.type)` body in `modify_file`
(src/tools/files.js, lines 166-217), before the per-operation `catch`
wrapper: given the 0-based index `i` and the running buffer, produce the
new buffer and the pushed note, or the thrown error message. -/
def applyOpCore (i : Nat) (content : List Char) (op : Operation) :
    Except String (List Char × String) :=
  match op with
  | .append text =>
    Except.ok (content ++ text,
      "Operation " ++ toString (i + 1) ++ ": appended " ++
        toString text.length ++ " characters")
  | .prepend text =>
    Except.ok (text ++ content,
      "Operation " ++ toString (i + 1) ++ ": prepended " ++
        toString text.length ++ " characters")
  | .insert_after anchor text occ =>
    match findNthOccurrence content anchor (occ.getD 1) with
    | Except.error e => Except.error e
    | Except.ok anchorIndex =>
      if anchorIndex = -1 then
        Except.error ("Anchor text not found for insert_after (occurrence " ++
          toString (occ.getD 1) ++ ")")
      else
        Except.ok (content.take (anchorIndex.toNat + anchor.length) ++ text ++
            content.drop (anchorIndex.toNat + anchor.length),
          "Operation " ++ toString (i + 1) ++ ": inserted after occurrence " ++
            toString (occ.getD 1) ++ " of anchor")
  | .insert_before anchor text occ =>
    match findNthOccurrence content anchor (occ.getD 1) with
    | Except.error e => Except.error e
    | Except.ok anchorIndex =>
      if anchorIndex = -1 then
        Except.error ("Anchor text not found for insert_before (occurrence " ++
          toString (occ.getD 1) ++ ")")
      else
        Except.ok (content.take anchorIndex.toNat ++ text ++
            content.drop anchorIndex.toNat,
          "Operation " ++ toString (i + 1) ++ ": inserted before occurrence " ++
            toString (occ.getD 1) ++ " of anchor")
  | .replace target text occ allOcc =>
    if allOcc = some true then
      if (jsSplit content target).length = 1 then
        Except.error "Target text not found for replace (all occurrences)"
      else
        Except.ok (List.intercalate text (jsSplit content target),
          "Operation " ++ toString (i + 1) ++
            ": replaced all occurrences of target (" ++
            toString (((jsSplit content target).length : Int) - 1) ++
            " matches)")
    else
      match findNthOccurrence content target (occ.getD 1) with
      | Except.error e => Except.error e
      | Except.ok targetIndex =>
        if targetIndex = -1 then
          Except.error ("Target text not found for replace (occurrence " ++
            toString (occ.getD 1) ++ ")")
        else
          Except.ok (content.take targetIndex.toNat ++ text ++
              content.drop (targetIndex.toNat + target.length),
            "Operation " ++ toString (i + 1) ++ ": replaced occurrence " ++
              toString (occ.getD 1) ++ " of target")
  | .replace_range startOffset endOffset text =>
    if startOffset > endOffset then
      Except.error "replace_range startOffset must be less than or equal to endOffset"
    else if endOffset > content.length then
      Except.error "replace_range endOffset exceeds file length"
    else
      Except.ok (content.take startOffset ++ text ++ content.drop endOffset,
        "Operation " ++ toString (i + 1) ++ ": replaced characters " ++
          toString startOffset ++ "-" ++ toString endOffset)

/-- One operation step including the per-operation `catch` of
src/tools/files.js lines 218-220, which wraps the cause with the 1-based
index and the operation kind. -/
def applyOp (i : Nat) (content : List Char) (op : Operation) :
    Except String (List Char × String) :=
  match applyOpCore i content op with
  | Except.ok r => Except.ok r
  | Except.error msg =>
    Except.error ("Failed to apply operation " ++ toString (i + 1) ++ " (" ++
      opTypeName op ++ "): " ++ msg)

/-- The `for (const [index, operation] of operations.entries())` loop:
thread the running buffer and the accumulated notes through the operations,
stopping at the first error. -/
def runOps : List Char → Nat → List Operation → List String →
    Except String (List Char × List String)
  | content, _, [], notes => Except.ok (content, notes)
  | content, i, op :: rest, notes =>
    match applyOp i content op with
    | Except.error e => Except.error e
    | Except.ok (c, note) => runOps c (i + 1) rest (notes ++ [note])

/-- The three outcomes of the `modify_file` handler that the caller must
distinguish: the no-op response, the success response carrying the final
buffer and notes, the error response, and the schema-level rejection of
invalid arguments (the zod input schema is checked before the handler
runs). -/
inductive Outcome where
  | unchanged
  | changed (finalContent : List Char) (notes : List String)
  | failed (message : String)
  | invalidArguments
deriving DecidableEq

/-- The `modify_file` handler body on an already-validated operations
list: run the loop; a thrown error is caught by the outer handler
(src/tools/files.js lines 235-237); on success compare the final buffer
with the original (line 222) and report the no-op outcome when equal. -/
def applyOperations (content : List Char) (ops : List Operation) : Outcome :=
  match runOps content 0 ops [] with
  | Except.error e => Outcome.failed ("Error modifying file: " ++ e)
  | Except.ok (finalContent, notes) =>
    if finalContent = content then Outcome.unchanged
    else Outcome.changed finalContent notes

/-- The zod schema constraints on a single operation (src/tools/files.js
lines 115-148): anchors and targets need `.min(1)`, an explicit occurrence
needs `.min(1)`; offsets are non-negative integers, which `Nat` already
guarantees. -/
def opSchemaOk : Operation → Bool
  | .append _ => true
  | .prepend _ => true
  | .insert_after anchor _ occ =>
    decide (anchor ≠ []) && (match occ with | none => true | some o => decide (1 ≤ o))
  | .insert_before anchor _ occ =>
    decide (anchor ≠ []) && (match occ with | none => true | some o => decide (1 ≤ o))
  | .replace target _ occ _ =>
    decide (target ≠ []) && (match occ with | none => true | some o => decide (1 ≤ o))
  | .replace_range _ _ _ => true

/-- The zod schema constraint on the operations array: `.min(1)` plus the
per-operation constraints. -/
def operationsSchemaOk (ops : List Operation) : Bool :=
  decide (1 ≤ ops.length) && ops.all opSchemaOk

/-- The full `modify_file` tool on a file whose current content is
`content`: the input schema is validated first (the MCP layer rejects the
call before the handler runs when it fails), then the handler body is
executed. -/
def modify_file (content : List Char) (ops : List Operation) : Outcome :=
  if operationsSchemaOk ops then applyOperations content ops
  else Outcome.invalidArguments

/-! ### Helper lemmas -/

/-- An index returned by `searchFrom` never exceeds the haystack length. -/
theorem searchFrom_le_length (needle : List Char) :
    ∀ s j, searchFrom needle s = some j → j ≤ s.length := by
  intro s
  induction s with
  | nil =>
    intro j h
    simp only [searchFrom] at h
    split at h
    · cases h; exact Nat.le_refl 0
    · cases h
  | cons c rest ih =>
    intro j h
    simp only [searchFrom] at h
    split at h
    · cases h; exact Nat.zero_le _
    · match hrec : searchFrom needle rest with
      | none => rw [hrec] at h; cases h
      | some j0 =>
        rw [hrec] at h
        simp only [Option.map_some'] at h
        cases h
        have := ih j0 hrec
        simp only [List.length_cons]
        omega

/-- A successful `searchFrom` answer is a genuine match: the needle fits
inside the haystack at the returned position and the haystack carries the
needle there. -/
theorem searchFrom_bounds (needle : List Char) (s : List Char) (j : Nat)
    (h : searchFrom needle s = some j) :
    j + needle.length ≤ s.length ∧ (s.drop j).take needle.length = needle := by
  have hpre : needle <+: s.drop j := by
    simpa [List.isPrefixOf_iff_prefix] using searchFrom_isPrefixOf needle s j h
  have hle : j ≤ s.length := searchFrom_le_length needle s j h
  have hlen : needle.length ≤ (s.drop j).length := hpre.length_le
  constructor
  · simp only [List.length_drop] at hlen
    omega
  · exact (List.prefix_iff_eq_take.mp hpre).symm

/-- A non-negative result of `jsIndexOf` is a genuine match: the needle fits
inside the haystack at that offset and occurs there. -/
theorem jsIndexOf_spec (haystack needle : List Char) (fromIndex : Nat)
    (i : Int) (h : jsIndexOf haystack needle fromIndex = i) (hpos : 0 ≤ i) :
    i.toNat + needle.length ≤ haystack.length ∧
      (haystack.drop i.toNat).take needle.length = needle := by
  unfold jsIndexOf at h
  match hsearch : searchFrom needle (haystack.drop (min fromIndex haystack.length)) with
  | none =>
    rw [hsearch] at h
    simp only at h
    omega
  | some j =>
    rw [hsearch] at h
    simp only at h
    obtain ⟨hb, htake⟩ :=
      searchFrom_bounds needle (haystack.drop (min fromIndex haystack.length)) j hsearch
    have hstartle : min fromIndex haystack.length ≤ haystack.length :=
      Nat.min_le_right _ _
    have hi : i.toNat = min fromIndex haystack.length + j := by omega
    constructor
    · simp only [List.length_drop] at hb
      omega
    · rw [hi, ← List.drop_drop]
      simpa [Nat.add_comm] using htake

/-- The scanning loop at occurrence count 1 is a single `indexOf` from the
given position. -/
theorem findNthLoop_one (h n : List Char) (f : Nat) :
    findNthLoop h n 1 f = jsIndexOf h n f := by
  by_cases hidx : jsIndexOf h n f = -1
  · simp [findNthLoop, hidx]
  · simp [findNthLoop, hidx]

/-- Unfolding the scanning loop once when the first search succeeds and more
than one occurrence is still wanted. -/
theorem findNthLoop_step (h n : List Char) (m : Nat) (f : Nat)
    (hm : m ≠ 0) (hidx : ¬ jsIndexOf h n f = -1) :
    findNthLoop h n (m + 1) f =
      findNthLoop h n m ((jsIndexOf h n f).toNat + n.length) := by
  simp [findNthLoop, hidx, hm]

/-- After the loop finds occurrence `k` at a non-negative offset `o`, the
loop for occurrence `k + 1` returns exactly the `indexOf` result searched
from `o + length(needle)`. -/
theorem findNthLoop_succ (h n : List Char) :
    ∀ k f o, 1 ≤ k → findNthLoop h n k f = o → 0 ≤ o →
      findNthLoop h n (k + 1) f = jsIndexOf h n (o.toNat + n.length) := by
  intro k
  induction k with
  | zero => intro f o h1; exact absurd h1 (by omega)
  | succ m ih =>
    intro f o _ heq hpos
    by_cases hidx : jsIndexOf h n f = -1
    · have hneg : findNthLoop h n (m + 1) f = -1 := by simp [findNthLoop, hidx]
      rw [heq] at hneg
      omega
    · by_cases hm : m = 0
      · subst hm
        have h1 : o = jsIndexOf h n f := by rw [← heq, findNthLoop_one]
        rw [findNthLoop_step h n 1 f (by omega) hidx, findNthLoop_one, ← h1]
      · have hm1 : 1 ≤ m := by omega
        have heq2 : findNthLoop h n m ((jsIndexOf h n f).toNat + n.length) = o := by
          rw [← heq, findNthLoop_step h n m f hm hidx]
        have hrec := ih ((jsIndexOf h n f).toNat + n.length) o hm1 heq2 hpos
        rw [findNthLoop_step h n (m + 1) f (by omega) hidx, hrec]

/-- Once the loop reports not-found for occurrence `k`, it also reports
not-found for occurrence `k + 1`. -/
theorem findNthLoop_neg (h n : List Char) :
    ∀ k f, 1 ≤ k → findNthLoop h n k f = -1 →
      findNthLoop h n (k + 1) f = -1 := by
  intro k
  induction k with
  | zero => intro f h1; exact absurd h1 (by omega)
  | succ m ih =>
    intro f _ heq
    by_cases hidx : jsIndexOf h n f = -1
    · simp [findNthLoop, hidx]
    · by_cases hm : m = 0
      · subst hm
        rw [findNthLoop_one] at heq
        exact absurd heq hidx
      · have hm1 : 1 ≤ m := by omega
        have heq2 : findNthLoop h n m ((jsIndexOf h n f).toNat + n.length) = -1 := by
          rw [← heq, findNthLoop_step h n m f hm hidx]
        have hrec := ih ((jsIndexOf h n f).toNat + n.length) hm1 heq2
        rw [findNthLoop_step h n (m + 1) f (by omega) hidx, hrec]

/-- Every non-negative value the loop returns was returned by some call to
`jsIndexOf`. -/
theorem findNthLoop_mem (h n : List Char) :
    ∀ k f o, findNthLoop h n k f = o → 0 ≤ o →
      ∃ f2, jsIndexOf h n f2 = o := by
  intro k
  induction k with
  | zero =>
    intro f o heq hpos
    simp only [findNthLoop] at heq
    omega
  | succ m ih =>
    intro f o heq hpos
    by_cases hidx : jsIndexOf h n f = -1
    · have hneg : findNthLoop h n (m + 1) f = -1 := by simp [findNthLoop, hidx]
      rw [heq] at hneg
      omega
    · by_cases hm : m = 0
      · subst hm
        rw [findNthLoop_one] at heq
        exact ⟨f, heq⟩
      · have heq2 : findNthLoop h n m ((jsIndexOf h n f).toNat + n.length) = o := by
          rw [← heq, findNthLoop_step h n m f hm hidx]
        exact ih _ o heq2 hpos

/-- Splitting the engine loop at a list concatenation: the remainder runs on
the buffer and notes produced by the first part, with the index advanced by
the length of the first part. -/
theorem runOps_append (pre : List Operation) :
    ∀ rest content i notes,
      runOps content i (pre ++ rest) notes =
        match runOps content i pre notes with
        | Except.error e => Except.error e
        | Except.ok (c, ns) => runOps c (i + pre.length) rest ns := by
  induction pre with
  | nil =>
    intro rest content i notes
    simp [runOps]
  | cons op pre ih =>
    intro rest content i notes
    simp only [List.cons_append, runOps]
    cases happ : applyOp i content op with
    | error e => rfl
    | ok r =>
      obtain ⟨c, note⟩ := r
      dsimp only
      rw [List.append_eq, ih]
      have harith : i + 1 + pre.length = i + (op :: pre).length := by
        simp only [List.length_cons]
        omega
      rw [harith]

/-- The split loop always produces at least one part. -/
theorem splitLoop_ne_nil (sep s : List Char) (hsep : sep ≠ []) :
    splitLoop sep s hsep ≠ [] := by
  rw [splitLoop]
  split <;> simp

/-- The split loop produces exactly one part precisely when the separator
does not occur in the string. -/
theorem splitLoop_length_one_iff (sep s : List Char) (hsep : sep ≠ []) :
    (splitLoop sep s hsep).length = 1 ↔ searchFrom sep s = none := by
  rw [splitLoop]
  split
  · simp [*]
  · rename_i j heq
    have hrec := splitLoop_ne_nil sep (s.drop (j + sep.length)) hsep
    constructor
    · intro hlen
      exfalso
      simp only [List.length_cons] at hlen
      exact hrec (List.length_eq_zero.mp (by omega))
    · intro hnone
      rw [heq] at hnone
      cases hnone

/-- `indexOf` from position 0 reports not-found exactly when the plain
search finds nothing. -/
theorem jsIndexOf_zero (h n : List Char) :
    jsIndexOf h n 0 = -1 ↔ searchFrom n h = none := by
  unfold jsIndexOf
  rw [Nat.min_eq_left (Nat.zero_le _), List.drop_zero]
  match hsearch : searchFrom n h with
  | none => simp
  | some j =>
    simp only
    constructor
    · intro hcast
      exfalso
      omega
    · intro hc
      cases hc

/-- An operation with an empty anchor/target among the locator-backed
variants, as submitted to the tool. -/
def hasEmptyNeedle : Operation → Bool
  | Operation.insert_after anchor _ _ => anchor.isEmpty
  | Operation.insert_before anchor _ _ => anchor.isEmpty
  | Operation.replace target _ _ _ => target.isEmpty
  | _ => false

/-- An operation with an empty needle never passes the input schema. -/
theorem hasEmptyNeedle_schema (op : Operation)
    (h : hasEmptyNeedle op = true) : opSchemaOk op = false := by
  cases op <;> simp_all [hasEmptyNeedle, opSchemaOk, List.isEmpty_iff]

/-- Unfolding the split loop when the separator does not occur. -/
theorem splitLoop_eq_none (sep s : List Char) (hsep : sep ≠ [])
    (h : searchFrom sep s = none) : splitLoop sep s hsep = [s] := by
  rw [splitLoop]
  split
  · rfl
  · rename_i j heq
    rw [heq] at h
    cases h

/-- Unfolding the split loop at the leftmost occurrence of the
separator. -/
theorem splitLoop_eq_some (sep s : List Char) (hsep : sep ≠ []) (j : Nat)
    (h : searchFrom sep s = some j) :
    splitLoop sep s hsep =
      s.take j :: splitLoop sep (s.drop (j + sep.length)) hsep := by
  rw [splitLoop]
  split
  · rename_i heq
    rw [heq] at h
    cases h
  · rename_i j0 heq
    rw [heq] at h
    injection h with h
    subst h
    rfl

/-- Concrete evaluation: "banana" split on "a" gives four parts. -/
theorem jsSplit_banana :
    jsSplit "banana".toList "a".toList = [['b'], ['n'], ['n'], []] := by
  have hne : ("a".toList : List Char) ≠ [] := by decide
  unfold jsSplit
  rw [dif_neg hne]
  rw [splitLoop_eq_some _ _ _ 1 (by decide)]
  norm_num
  rw [splitLoop_eq_some _ _ _ 1 (by decide)]
  norm_num
  rw [splitLoop_eq_some _ _ _ 1 (by decide)]
  norm_num
  rw [splitLoop_eq_none _ _ _ (by decide)]

/-! ### Claim theorems -/

/-- C1: The engine applies operations strictly in array order, and
anchor/target/occurrence resolution for the k-th operation is performed
against the buffer produced by operations 1..k-1, not the initial buffer:
the head operation runs first on the current buffer and the tail runs on
its output; running a concatenated list runs the second part on the buffer
and notes left by the first part; and applying
`[append "bar", insert_after (anchor "bar", text "!")]` to the empty buffer
yields `"bar!"`. -/
theorem C1_operations_in_order :
    (∀ content i op rest notes,
      runOps content i (op :: rest) notes =
        match applyOp i content op with
        | Except.error e => Except.error e
        | Except.ok (c, note) => runOps c (i + 1) rest (notes ++ [note])) ∧
    (∀ content i pre rest notes,
      runOps content i (pre ++ rest) notes =
        match runOps content i pre notes with
        | Except.error e => Except.error e
        | Except.ok (c, ns) => runOps c (i + pre.length) rest ns) ∧
    modify_file [] [Operation.append "bar".toList,
        Operation.insert_after "bar".toList "!".toList none] =
      Outcome.changed "bar!".toList
        ["Operation 1: appended 3 characters",
         "Operation 2: inserted after occurrence 1 of anchor"] := by
  refine ⟨fun content i op rest notes => rfl,
    fun content i pre rest notes => runOps_append pre rest content i notes,
    by decide⟩

/-- C2: The locator finds the n-th non-overlapping left-to-right literal
match by forward scanning: occurrence 1 is a single search from position 0;
after occurrence k is found at offset o, the result for occurrence k+1 is
exactly the search continued from `o + length(needle)` (the start offset of
the next match, or -1 when no further match exists); once an occurrence is
not found no later occurrence is found; in "ababab", "ab" has occurrence 2
at offset 2, occurrence 3 at offset 4, and occurrence 4 not found. -/
theorem C2_locator_forward_scan :
    (∀ h n : List Char, n ≠ [] →
      findNthOccurrence h n 1 = Except.ok (jsIndexOf h n 0)) ∧
    (∀ (h n : List Char) (k : Nat) (o : Int), n ≠ [] → 1 ≤ k →
      findNthOccurrence h n k = Except.ok o → 0 ≤ o →
        findNthOccurrence h n (k + 1) =
          Except.ok (jsIndexOf h n (o.toNat + n.length))) ∧
    (∀ (h n : List Char) (k : Nat), n ≠ [] → 1 ≤ k →
      findNthOccurrence h n k = Except.ok (-1) →
        findNthOccurrence h n (k + 1) = Except.ok (-1)) ∧
    findNthOccurrence "ababab".toList "ab".toList 2 = Except.ok 2 ∧
    findNthOccurrence "ababab".toList "ab".toList 3 = Except.ok 4 ∧
    findNthOccurrence "ababab".toList "ab".toList 4 = Except.ok (-1) := by
  refine ⟨?_, ?_, ?_, by rfl, by rfl, by rfl⟩
  · intro h n hn
    unfold findNthOccurrence
    rw [if_neg hn, findNthLoop_one]
  · intro h n k o hn hk heq hpos
    unfold findNthOccurrence at heq ⊢
    rw [if_neg hn] at heq ⊢
    have hloop : findNthLoop h n k 0 = o := by
      injection heq
    rw [findNthLoop_succ h n k 0 o hk hloop hpos]
  · intro h n k hn hk heq
    unfold findNthOccurrence at heq ⊢
    rw [if_neg hn] at heq ⊢
    have hloop : findNthLoop h n k 0 = -1 := by
      injection heq
    rw [findNthLoop_neg h n k 0 hk hloop]

/-- C2 witness: the forward-scan recurrence instantiated on "ababab" and
"ab": occurrence 1 is a single search from position 0, and the result for
occurrence 3 is the search continued after occurrence 2 at offset 2. -/
theorem C2_locator_forward_scan_witness :
    findNthOccurrence "ababab".toList "ab".toList 1 =
      Except.ok (jsIndexOf "ababab".toList "ab".toList 0) ∧
    findNthOccurrence "ababab".toList "ab".toList 3 =
      Except.ok (jsIndexOf "ababab".toList "ab".toList
        ((2 : Int).toNat + "ab".toList.length)) :=
  ⟨C2_locator_forward_scan.1 "ababab".toList "ab".toList (by decide),
   C2_locator_forward_scan.2.1 "ababab".toList "ab".toList 2 2 (by decide)
     (by decide) (by rfl) (by decide)⟩

/-- C3: The engine aborts at the first failing operation: when the
operations before it succeed and produce buffer `ck`, and the operation at
(0-based) position `pre.length` fails with the underlying cause `cause`,
the whole batch returns the failure outcome — never the partially mutated
buffer — and the error wraps the cause together with the 1-based index of
the failing operation and its kind; the operations after the failing one do
not influence the result. -/
theorem C3_first_failure_aborts :
    ∀ (content0 : List Char) (pre : List Operation) (ck : List Char)
      (notes : List String) (op : Operation) (cause : String)
      (post : List Operation),
      runOps content0 0 pre [] = Except.ok (ck, notes) →
      applyOpCore pre.length ck op = Except.error cause →
      applyOperations content0 (pre ++ op :: post) =
        Outcome.failed ("Error modifying file: " ++
          ("Failed to apply operation " ++ toString (pre.length + 1) ++
            " (" ++ opTypeName op ++ "): " ++ cause)) := by
  intro content0 pre ck notes op cause post hpre hop
  have hwrap : applyOp pre.length ck op =
      Except.error ("Failed to apply operation " ++ toString (pre.length + 1) ++
        " (" ++ opTypeName op ++ "): " ++ cause) := by
    unfold applyOp
    rw [hop]
  unfold applyOperations
  rw [runOps_append pre (op :: post) content0 0 [], hpre]
  dsimp only
  rw [show (0 + pre.length) = pre.length from by omega]
  simp only [runOps, hwrap]

/-- C3 witness: in a three-operation batch whose second operation is an
invalid range edit, the engine fails naming operation 2 and its kind, with
the underlying cause, regardless of the third operation. -/
theorem C3_first_failure_aborts_witness :
    applyOperations "ab".toList
        [Operation.append "c".toList, Operation.replace_range 5 2 "x".toList,
         Operation.append "z".toList] =
      Outcome.failed ("Error modifying file: " ++
        ("Failed to apply operation " ++
          toString ([Operation.append "c".toList].length + 1) ++
          " (" ++ opTypeName (Operation.replace_range 5 2 "x".toList) ++ "): " ++
          "replace_range startOffset must be less than or equal to endOffset")) :=
  C3_first_failure_aborts "ab".toList [Operation.append "c".toList]
    "abc".toList ["Operation 1: appended 1 characters"]
    (Operation.replace_range 5 2 "x".toList)
    "replace_range startOffset must be less than or equal to endOffset"
    [Operation.append "z".toList] (by rfl) (by rfl)

/-- C4: `replace_range` validates `startOffset ≤ endOffset` and
`endOffset ≤ length(currentBuffer)` against the current buffer; each
violated bound yields its own distinct error and bounds are never clamped;
on success the half-open span `[startOffset, endOffset)` is replaced by the
given text; `replace_range 2 5 "Z"` on `"abcdefg"` yields `"abZfg"`. -/
theorem C4_replace_range_validation :
    (∀ (i : Nat) (content : List Char) (s e : Nat) (text : List Char), e < s →
      applyOpCore i content (Operation.replace_range s e text) =
        Except.error "replace_range startOffset must be less than or equal to endOffset") ∧
    (∀ (i : Nat) (content : List Char) (s e : Nat) (text : List Char),
      s ≤ e → content.length < e →
      applyOpCore i content (Operation.replace_range s e text) =
        Except.error "replace_range endOffset exceeds file length") ∧
    ("replace_range startOffset must be less than or equal to endOffset" ≠
      "replace_range endOffset exceeds file length") ∧
    (∀ (i : Nat) (content : List Char) (s e : Nat) (text : List Char),
      s ≤ e → e ≤ content.length →
      applyOpCore i content (Operation.replace_range s e text) =
        Except.ok (content.take s ++ text ++ content.drop e,
          "Operation " ++ toString (i + 1) ++ ": replaced characters " ++
            toString s ++ "-" ++ toString e)) ∧
    applyOpCore 0 "abcdefg".toList (Operation.replace_range 2 5 "Z".toList) =
      Except.ok ("abZfg".toList, "Operation 1: replaced characters 2-5") := by
  refine ⟨?_, ?_, by decide, ?_, by rfl⟩
  · intro i content s e text hlt
    have hgt : s > e := hlt
    simp [applyOpCore, hgt]
  · intro i content s e text hle hlen
    have h1 : ¬ s > e := by omega
    have h2 : e > content.length := hlen
    simp [applyOpCore, h1, h2]
  · intro i content s e text hle hlen
    have h1 : ¬ s > e := by omega
    have h2 : ¬ e > content.length := by omega
    simp [applyOpCore, h1, h2]

/-- C4 witness: the start-after-end violation, the end-beyond-buffer
violation and a successful range replacement, each on a concrete input. -/
theorem C4_replace_range_validation_witness :
    applyOpCore 0 "ab".toList (Operation.replace_range 3 1 "x".toList) =
      Except.error "replace_range startOffset must be less than or equal to endOffset" ∧
    applyOpCore 0 "ab".toList (Operation.replace_range 1 5 "x".toList) =
      Except.error "replace_range endOffset exceeds file length" ∧
    applyOpCore 0 "abcdefg".toList (Operation.replace_range 2 5 "Z".toList) =
      Except.ok ("abcdefg".toList.take 2 ++ "Z".toList ++ "abcdefg".toList.drop 5,
        "Operation " ++ toString (0 + 1) ++ ": replaced characters " ++
          toString 2 ++ "-" ++ toString 5) :=
  ⟨C4_replace_range_validation.1 0 "ab".toList 3 1 "x".toList (by decide),
   C4_replace_range_validation.2.1 0 "ab".toList 1 5 "x".toList (by decide)
     (by decide),
   C4_replace_range_validation.2.2.2.1 0 "abcdefg".toList 2 5 "Z".toList
     (by decide) (by decide)⟩

/-- C5: When every operation succeeds, the engine compares the final
buffer character-for-character with the initial buffer: if identical it
returns the distinct Unchanged outcome, regardless of the notes produced;
otherwise it returns the Changed outcome carrying the final buffer and its
ordered notes; a `replace("X","Y")` followed by `replace("Y","X")` on "X"
returns Unchanged. -/
theorem C5_unchanged_outcome :
    (∀ (content : List Char) (ops : List Operation) (finalContent : List Char)
      (notes : List String),
      runOps content 0 ops [] = Except.ok (finalContent, notes) →
        applyOperations content ops =
          if finalContent = content then Outcome.unchanged
          else Outcome.changed finalContent notes) ∧
    modify_file "X".toList
        [Operation.replace "X".toList "Y".toList none none,
         Operation.replace "Y".toList "X".toList none none] =
      Outcome.unchanged := by
  constructor
  · intro content ops finalContent notes h
    unfold applyOperations
    rw [h]
  · decide

/-- C5 witness: the cancel-out batch on buffer "X" goes through the
final-buffer comparison and lands in the Unchanged branch even though two
notes were produced. -/
theorem C5_unchanged_outcome_witness :
    applyOperations "X".toList
        [Operation.replace "X".toList "Y".toList none none,
         Operation.replace "Y".toList "X".toList none none] =
      if "X".toList = "X".toList then Outcome.unchanged
      else Outcome.changed "X".toList
        ["Operation 1: replaced occurrence 1 of target",
         "Operation 2: replaced occurrence 1 of target"] :=
  C5_unchanged_outcome.1 "X".toList
    [Operation.replace "X".toList "Y".toList none none,
     Operation.replace "Y".toList "X".toList none none]
    "X".toList
    ["Operation 1: replaced occurrence 1 of target",
     "Operation 2: replaced occurrence 1 of target"] (by rfl)

/-- C6: `replace` with `allOccurrences` true splits the running buffer on
every literal non-overlapping occurrence of the target and rejoins with the
replacement text; it fails with the target-not-found error exactly when the
buffer splits into a single part, which happens precisely when the locator
finds no first occurrence; the note records split-count minus one matches;
on "banana", target "a" and text "o" produce "bonono" with a note
reporting 3 matches. -/
theorem C6_replace_all_semantics :
    (∀ (i : Nat) (content target text : List Char) (occ : Option Nat),
      applyOpCore i content (Operation.replace target text occ (some true)) =
        if (jsSplit content target).length = 1 then
          Except.error "Target text not found for replace (all occurrences)"
        else
          Except.ok (List.intercalate text (jsSplit content target),
            "Operation " ++ toString (i + 1) ++
              ": replaced all occurrences of target (" ++
              toString (((jsSplit content target).length : Int) - 1) ++
              " matches)")) ∧
    (∀ content target : List Char, target ≠ [] →
      ((jsSplit content target).length = 1 ↔
        findNthOccurrence content target 1 = Except.ok (-1))) ∧
    applyOpCore 0 "banana".toList
        (Operation.replace "a".toList "o".toList none (some true)) =
      Except.ok ("bonono".toList,
        "Operation 1: replaced all occurrences of target (3 matches)") := by
  refine ⟨fun i content target text occ => rfl, ?_, ?_⟩
  · intro content target ht
    have h1 : (jsSplit content target).length = 1 ↔
        searchFrom target content = none := by
      simp only [jsSplit, dif_neg ht]
      exact splitLoop_length_one_iff target content ht
    have h2 : findNthOccurrence content target 1 = Except.ok (-1) ↔
        jsIndexOf content target 0 = -1 := by
      unfold findNthOccurrence
      rw [if_neg ht, findNthLoop_one]
      constructor
      · intro h
        injection h
      · intro h
        rw [h]
    rw [h1, h2, jsIndexOf_zero]
  · simp only [applyOpCore, jsSplit_banana]
    rfl

/-- C6 witness: on "banana" with target "a" the split has more than one
part, matching the locator finding a first occurrence. -/
theorem C6_replace_all_semantics_witness :
    ((jsSplit "banana".toList "a".toList).length = 1 ↔
      findNthOccurrence "banana".toList "a".toList 1 = Except.ok (-1)) :=
  C6_replace_all_semantics.2.1 "banana".toList "a".toList (by decide)

/-- C7: An empty anchor/target is always a failure and is never treated as
matching everywhere: the locator raises its non-empty-needle error (it
never returns an offset, in particular not offset 0) for every haystack and
occurrence; the engine step fails for `insert_after`, `insert_before` and
single-occurrence `replace` with an empty needle; and an operation list
containing any empty-needle operation is rejected by the tool's input
schema before any buffer is touched. -/
theorem C7_empty_needle_fails :
    (∀ (h : List Char) (occ : Nat),
      findNthOccurrence h [] occ =
        Except.error "Anchor/target text must not be empty") ∧
    (∀ (i : Nat) (content text : List Char) (occ : Option Nat),
      applyOpCore i content (Operation.insert_after [] text occ) =
        Except.error "Anchor/target text must not be empty") ∧
    (∀ (i : Nat) (content text : List Char) (occ : Option Nat),
      applyOpCore i content (Operation.insert_before [] text occ) =
        Except.error "Anchor/target text must not be empty") ∧
    (∀ (i : Nat) (content text : List Char) (occ : Option Nat),
      applyOpCore i content (Operation.replace [] text occ none) =
        Except.error "Anchor/target text must not be empty") ∧
    (∀ (i : Nat) (content text : List Char) (occ : Option Nat),
      applyOpCore i content (Operation.replace [] text occ (some false)) =
        Except.error "Anchor/target text must not be empty") ∧
    (∀ (content : List Char) (ops : List Operation) (op : Operation),
      op ∈ ops → hasEmptyNeedle op = true →
        modify_file content ops = Outcome.invalidArguments) := by
  refine ⟨fun h occ => rfl, fun i content text occ => rfl,
    fun i content text occ => rfl, fun i content text occ => rfl,
    fun i content text occ => rfl, ?_⟩
  intro content ops op hmem hempty
  have hbad : opSchemaOk op = false := hasEmptyNeedle_schema op hempty
  have hall : ops.all opSchemaOk = false := by
    rw [List.all_eq_false]
    exact ⟨op, hmem, by simp [hbad]⟩
  unfold modify_file
  rw [if_neg (by simp [operationsSchemaOk, hall])]

/-- C7 witness: a single insert_after operation with an empty anchor is
rejected by the tool on a concrete buffer. -/
theorem C7_empty_needle_fails_witness :
    modify_file "abc".toList [Operation.insert_after [] "x".toList none] =
      Outcome.invalidArguments :=
  C7_empty_needle_fails.2.2.2.2.2 "abc".toList
    [Operation.insert_after [] "x".toList none]
    (Operation.insert_after [] "x".toList none)
    (List.mem_singleton.mpr rfl) (by rfl)

/-- C8: For every buffer, invoking the tool with an empty operation list is
rejected by the input schema (`.min(1)` on the operations array) before any
mutation is attempted: the result is the invalid-arguments outcome, the
same for every buffer, and never a Changed or Unchanged outcome. -/
theorem C8_empty_operations_rejected :
    ∀ content : List Char, modify_file content [] = Outcome.invalidArguments :=
  fun content => rfl

/-- C10: For every buffer and every replace operation with allOccurrences
true, the result — buffer, note, or error — is independent of the value of
the occurrence field: two runs differing only in occurrence are
identical. -/
theorem C10_replace_all_ignores_occurrence :
    ∀ (i : Nat) (content target text : List Char) (occ1 occ2 : Option Nat),
      applyOp i content (Operation.replace target text occ1 (some true)) =
        applyOp i content (Operation.replace target text occ2 (some true)) :=
  fun i content target text occ1 occ2 => rfl

/-- C9: Locator postcondition: whenever the locator returns a non-negative
offset i for a non-empty needle, the needle fits inside the haystack at i
(`i + length(needle) ≤ length(haystack)`) and the haystack carries the
needle at i — a returned offset is always the start of an actual match and
never points past the end of the buffer. -/
theorem C9_locator_postcondition :
    ∀ (h n : List Char) (occ : Nat) (i : Int), n ≠ [] → 1 ≤ occ →
      findNthOccurrence h n occ = Except.ok i → 0 ≤ i →
        i.toNat + n.length ≤ h.length ∧
          (h.drop i.toNat).take n.length = n := by
  intro h n occ i hn hocc heq hpos
  unfold findNthOccurrence at heq
  rw [if_neg hn] at heq
  have hloop : findNthLoop h n occ 0 = i := by
    injection heq
  obtain ⟨f2, hf2⟩ := findNthLoop_mem h n occ 0 i hloop hpos
  exact jsIndexOf_spec h n f2 i hf2 hpos

/-- C9 witness: occurrence 2 of "ab" in "ababab" is offset 2, which is an
actual in-bounds match. -/
theorem C9_locator_postcondition_witness :
    (2 : Int).toNat + "ab".toList.length ≤ "ababab".toList.length ∧
      ("ababab".toList.drop (2 : Int).toNat).take "ab".toList.length =
        "ab".toList :=
  C9_locator_postcondition "ababab".toList "ab".toList 2 2 (by decide)
    (by decide) (by rfl) (by decide)

end ObsidianMcp
